import Mathlib

/-!
# Verification of the voice_rover command pipeline

Shallow embedding of the `voice_rover` repository's command interpretation and
dispatch pipeline, together with theorems settling the specification claims.

The embedding covers:
* `pi/command_parser/command_schema.py` — `CommandType`, `Command`, priorities;
* `pi/command_queue/queue_manager.py` — `CommandQueueManager` (the shipped
  bodies are unimplemented stubs that return `False` / `None`; the embedding
  reproduces those bodies exactly);
* `pi/serial_comm/serial_interface.py` — `SerialInterface` as a state machine
  over an explicit environment (serial port reactions), with the non-reentrant
  `threading.Lock` modelled explicitly;
* `pi/command_parser/parser.py` — `CommandParser`, including a small
  backtracking regular-expression engine mirroring the semantics of the
  `re` module on the pattern fragment actually used by the source.

Python strings are modelled as `List Char` / `String`, Python floats arising
from decimal literals and `float(...)` on matched digit strings as `ℚ`
(no rounding is exercised by the code on these paths), Python ints as `ℤ`/`ℕ`.
-/

namespace VoiceRover

/-! ## Python string primitives used by the source -/

/-- Python `str.isspace` / the `\s` class for the ASCII range:
space, tab, newline, carriage return, form feed, vertical tab. -/
def isPySpace (c : Char) : Bool :=
  c == ' ' || c == '\t' || c == '\n' || c == '\r' || c == '\x0c' || c == '\x0b'

/-- Python `str.strip()` on a character list: remove leading and trailing
whitespace. -/
def pyStrip (l : List Char) : List Char :=
  ((l.dropWhile isPySpace).reverse.dropWhile isPySpace).reverse

/-- Python `str.lower()` restricted to ASCII letters (the parser only ever
receives ASCII text; all pattern literals are lowercase ASCII). -/
def pyLowerChar (c : Char) : Char :=
  if 'A' ≤ c ∧ c ≤ 'Z' then Char.ofNat (c.toNat + 32) else c

/-- Python `str.lower()` on a character list. -/
def pyLower (l : List Char) : List Char := l.map pyLowerChar

/-- Python `float` truncation to `int` (truncates toward zero). -/
def pyInt (q : ℚ) : ℤ :=
  if 0 ≤ q then ⌊q⌋ else -⌊-q⌋

/-! ## `pi/command_parser/command_schema.py` -/

/-- `CommandType` enumeration from `command_schema.py`. -/
inductive CommandType where
  | move_forward
  | move_backward
  | rotate_clockwise
  | rotate_counterclockwise
  | stop
  | turn_left
  | turn_right
  | move_forward_for_time
  | move_backward_for_time
  | make_square
  | make_circle
  | make_star
  | zigzag
  | spin
  | dance
deriving DecidableEq, Repr

/-- A Python parameter value as produced by the parser: a float (modelled as
`ℚ`; all values are produced by `float(...)` on decimal digit strings or are
decimal literals), an int (zigzag repetitions), or a string (circle
direction). -/
inductive PVal where
  | num (q : ℚ)
  | int (z : ℤ)
  | str (s : String)
deriving DecidableEq, Repr

/-- The `Command` dataclass: command type, ordered parameter mapping,
priority. -/
structure Command where
  command_type : CommandType
  parameters : List (String × PVal)
  priority : ℤ := 0
deriving DecidableEq, Repr

/-- `PRIORITY_STOP = 100` from `command_schema.py`. -/
def PRIORITY_STOP : ℤ := 100

/-- `PRIORITY_NORMAL = 0` from `command_schema.py`. -/
def PRIORITY_NORMAL : ℤ := 0

/-! ## `pi/command_queue/queue_manager.py`

The shipped `CommandQueueManager` bodies are unimplemented `TODO` stubs:
`enqueue` ends in `return False`, `dequeue` in `return None`, `clear` in
`pass`, `is_empty` in `return True` and `size` in `return 0` (the intended
implementations only appear in comments).  The embedding reproduces exactly
those executable bodies.  The internal `queue.PriorityQueue` is represented
by its entry list; the stub bodies never touch it. -/

structure CommandQueueManager where
  max_size : ℕ
  entries : List (ℤ × ℕ × Command)
deriving DecidableEq, Repr

namespace CommandQueueManager

/-- `CommandQueueManager.__init__(max_size)`. -/
def init (max_size : ℕ := 100) : CommandQueueManager :=
  { max_size := max_size, entries := [] }

/-- `enqueue`: the body is `return False` (the insertion logic is commented
out `TODO` code). -/
def enqueue (q : CommandQueueManager) (_command : Command) :
    Bool × CommandQueueManager :=
  (false, q)

/-- `dequeue`: the body is `return None` (the removal logic is commented out
`TODO` code).  The `timeout` argument is accepted and ignored, as in the
source. -/
def dequeue (q : CommandQueueManager) (_timeout : Option ℚ) :
    Option Command × CommandQueueManager :=
  (none, q)

/-- `clear`: the body is `pass`. -/
def clear (q : CommandQueueManager) : CommandQueueManager := q

/-- `is_empty`: the body is `return True`. -/
def is_empty (_q : CommandQueueManager) : Bool := true

/-- `size`: the body is `return 0`. -/
def size (_q : CommandQueueManager) : ℕ := 0

end CommandQueueManager

/-! ## `pi/serial_comm/serial_interface.py`

`SerialInterface` is modelled as a state machine.  The surrounding world (the
result of `glob.glob`, of the `serial.Serial` constructor, of
`self._serial.write` and `self._serial.read`) is an explicit environment.
The instance's non-reentrant `threading.Lock` is modelled by a `lockHeld`
flag: a single-threaded call that executes `with self._lock` while the same
thread already holds the lock blocks forever (Python `threading.Lock` is not
reentrant), which the embedding renders as the `deadlock` outcome.
`time.sleep` calls are recorded in a `sleeps` trace; written commands are
recorded in a `writes` trace (their JSON text is irrelevant to every claim,
only the fact and outcome of the write matter). -/

/-- Config constants from `pi/config.py` used by the serial interface. -/
def SERIAL_TIMEOUT : ℚ := 1

/-- State of a `SerialInterface` instance plus the bytes the device has made
available for reading.  `serial` is `none` while `self._serial is None`,
`some b` when a port object with `is_open = b` is held.  `pending` is the
queue of byte chunks the underlying port will deliver: `in_waiting` is the
size of the next chunk and `read(in_waiting)` pops it. -/
structure SIState where
  port : String
  autoDetect : Bool
  connected : Bool
  serial : Option Bool
  reconnectAttempts : ℕ
  maxBackoffSeconds : ℕ
  readBuffer : List Char
  lockHeld : Bool
  pending : List (List Char)
  sleeps : List ℚ
  writes : List Command
deriving DecidableEq, Repr

/-- `SerialInterface.__init__(port, baudrate)` with an explicit port (the
`port="/dev/ttyUSB0"` form used by the tests): `_auto_detect` false. -/
def SIState.initExplicit (port : String) : SIState :=
  { port := port, autoDetect := false, connected := false, serial := none,
    reconnectAttempts := 0, maxBackoffSeconds := 10, readBuffer := [],
    lockHeld := false, pending := [], sleeps := [], writes := [] }

/-- `SerialInterface.__init__` with `port=None` or `port=""`: `_auto_detect`
true and `self.port` falls back to `config.SERIAL_PORT`. -/
def SIState.initAuto : SIState :=
  { SIState.initExplicit "/dev/ttyUSB0" with autoDetect := true }

/-- Outcome of the `serial.Serial(...)` constructor in `connect`. -/
inductive OpenResult where
  | ok
  | serialExc
  | otherExc
deriving DecidableEq, Repr

/-- Outcome of `self._serial.write` / `flush` in `send_command`. -/
inductive WriteResult where
  | ok
  | serialExc
  | otherExc
deriving DecidableEq, Repr

/-- Outcome of `self._serial.read` in `read_response`. -/
inductive ReadResult where
  | ok
  | serialExc
  | otherExc
deriving DecidableEq, Repr

/-- Environment: how the outside world answers the interface's calls.
`globUsb`/`globAcm` are the results of `glob.glob('/dev/ttyUSB*')` and
`glob.glob('/dev/ttyACM*')`. -/
structure SerialEnv where
  globUsb : List String
  globAcm : List String
  openResult : OpenResult
  writeResult : WriteResult
  readResult : ReadResult
deriving DecidableEq, Repr

/-- Result of running one `SerialInterface` method: normal return, a
propagated exception (`serial.SerialException` escaping the method),
blocking forever on the instance's own non-reentrant lock, or fuel
exhaustion of the embedding (never reached by any theorem below). -/
inductive SIRes (α : Type) where
  | ok (a : α) (s : SIState)
  | exc (s : SIState)
  | deadlock (s : SIState)
  | nofuel
deriving DecidableEq, Repr

namespace SerialInterface

/-- `SerialInterface._find_serial_port`: scan `/dev/ttyUSB*` then
`/dev/ttyACM*`; `None` when empty, else the first entry (a warning is logged
when several are found). -/
def find_serial_port (env : SerialEnv) : Option String :=
  match env.globUsb ++ env.globAcm with
  | [] => none
  | p :: _ => some p

/-- `SerialInterface.connect`.  Acquires the lock (deadlock if the caller's
thread already holds it), early-returns `True` when already connected with an
open port, auto-detects the port when configured to, raises
`serial.SerialException` when auto-detection finds no candidate, then opens
the port: success sets `_connected`, resets `_reconnect_attempts`, clears
`_read_buffer`; any constructor failure sets `_connected = False` and
returns `False`. -/
def connect (s : SIState) (env : SerialEnv) : SIRes Bool :=
  if s.lockHeld then .deadlock s else
  let s1 : SIState := { s with lockHeld := true }
  -- `self._connected and self._serial and self._serial.is_open` is truthy
  -- exactly when a port object is held and open:
  if s1.connected = true ∧ s1.serial = some true then
    .ok true { s1 with lockHeld := false }
  else
    let detect : Option SIState :=
      if s1.autoDetect then
        match find_serial_port env with
        | none => none
        | some p => some { s1 with port := p }
      else some s1
    match detect with
    | none => .exc { s1 with lockHeld := false }
    | some s2 =>
      match env.openResult with
      | .ok =>
        .ok true { s2 with serial := some true, connected := true,
                           reconnectAttempts := 0, readBuffer := [],
                           lockHeld := false }
      | .serialExc => .ok false { s2 with connected := false, lockHeld := false }
      | .otherExc => .ok false { s2 with connected := false, lockHeld := false }

/-- The backoff wait computed by `_reconnect`:
`min(2 ** self._reconnect_attempts, self._max_backoff_seconds)`. -/
def reconnectWait (attempts maxBackoffSeconds : ℕ) : ℕ :=
  min (2 ^ attempts) maxBackoffSeconds

/-- `SerialInterface._reconnect`: sleep the backoff wait, increment the
attempt counter, delegate to `connect`.  Takes no lock of its own. -/
def reconnect (s : SIState) (env : SerialEnv) : SIRes Bool :=
  let w := reconnectWait s.reconnectAttempts s.maxBackoffSeconds
  let s1 : SIState :=
    { s with sleeps := s.sleeps ++ [(w : ℚ)],
             reconnectAttempts := s.reconnectAttempts + 1 }
  connect s1 env

/-- `SerialInterface.send_command`.  Acquires the lock, connects first when
disconnected (a nested `connect` while the lock is held — deadlock), then
writes the serialized command.  A `serial.SerialException` from the write
marks the interface disconnected and runs `_reconnect`; on reconnect success
the whole call is retried recursively (the `fuel` bounds only this
recursion).  Any other exception returns `False`.  Exceptions escaping the
`with` block release the lock. -/
def send_command (fuel : ℕ) (s : SIState) (env : SerialEnv) (command : Command) :
    SIRes Bool :=
  if s.lockHeld then .deadlock s else
  let s1 : SIState := { s with lockHeld := true }
  let afterConnect : SIRes Bool :=
    if s1.connected = false then connect s1 env
    else .ok true s1
  match afterConnect with
  | .ok true s2 =>
    -- try: write + flush
    (match env.writeResult with
     | .ok => .ok true { s2 with writes := s2.writes ++ [command], lockHeld := false }
     | .serialExc =>
       let s3 : SIState := { s2 with connected := false }
       (match reconnect s3 env with
        | .ok true s4 =>
          (match fuel with
           | 0 => .nofuel
           | fuel' + 1 =>
             -- `return self.send_command(command)` still inside the `with`
             -- block: the recursive call re-acquires the held lock.
             match send_command fuel' s4 env command with
             | .ok b s5 => .ok b { s5 with lockHeld := false }
             | .exc s5 => .exc { s5 with lockHeld := false }
             | .deadlock s5 => .deadlock s5
             | .nofuel => .nofuel)
        | .ok false s4 => .ok false { s4 with lockHeld := false }
        | .exc s4 => .exc { s4 with lockHeld := false }
        | .deadlock s4 => .deadlock s4
        | .nofuel => .nofuel)
     | .otherExc => .ok false { s2 with lockHeld := false })
  | .ok false s2 => .ok false { s2 with lockHeld := false }
  | .exc s2 => .exc { s2 with lockHeld := false }
  | .deadlock s2 => .deadlock s2
  | .nofuel => .nofuel

end SerialInterface

/-! ## A model of `json.loads`

`SerialInterface._parse_response` runs `json.loads` on each received line and
keeps the result only when it is a JSON object (a Python `dict`).  The model
below parses the JSON value grammar accepted by `json.loads` (objects,
arrays, strings with escapes, numbers — including the `NaN` / `Infinity` /
`-Infinity` constants CPython accepts by default — plus `true`, `false`,
`null`).  Numbers are kept as their source text: no claim inspects a numeric
value, only parse success and the top-level type.  Objects are kept as the
ordered list of key/value pairs (CPython's duplicate-key collapsing is not
exercised by any claim). -/

/-- A parsed JSON value. -/
inductive JsonVal where
  | jnull
  | jbool (b : Bool)
  | jnum (lit : String)
  | jstr (s : String)
  | jarr (elems : List JsonVal)
  | jobj (fields : List (String × JsonVal))
deriving Repr

/-- Is the value a JSON object (`isinstance(response, dict)`)? -/
def JsonVal.isObj : JsonVal → Bool
  | .jobj _ => true
  | _ => false

namespace Json

/-- JSON insignificant whitespace (`json.decoder`: space, tab, newline,
carriage return). -/
def isJsonWs (c : Char) : Bool :=
  c == ' ' || c == '\t' || c == '\n' || c == '\r'

/-- Skip insignificant whitespace. -/
def skipWs (cs : List Char) : List Char := cs.dropWhile isJsonWs

/-- Hex digit value. -/
def hexVal (c : Char) : Option ℕ :=
  if '0' ≤ c ∧ c ≤ '9' then some (c.toNat - '0'.toNat)
  else if 'a' ≤ c ∧ c ≤ 'f' then some (c.toNat - 'a'.toNat + 10)
  else if 'A' ≤ c ∧ c ≤ 'F' then some (c.toNat - 'A'.toNat + 10)
  else none

/-- Parse the body of a JSON string after the opening quote; returns the
decoded content and the remainder after the closing quote.  Control
characters below `0x20` are rejected (`strict=True` default). -/
def parseStr : List Char → Option (List Char × List Char)
  | [] => none
  | '"' :: rest => some ([], rest)
  | '\\' :: esc =>
    match esc with
    | '"' :: r => (parseStr r).map (fun (s, r') => ('"' :: s, r'))
    | '\\' :: r => (parseStr r).map (fun (s, r') => ('\\' :: s, r'))
    | '/' :: r => (parseStr r).map (fun (s, r') => ('/' :: s, r'))
    | 'b' :: r => (parseStr r).map (fun (s, r') => ('\x08' :: s, r'))
    | 'f' :: r => (parseStr r).map (fun (s, r') => ('\x0c' :: s, r'))
    | 'n' :: r => (parseStr r).map (fun (s, r') => ('\n' :: s, r'))
    | 'r' :: r => (parseStr r).map (fun (s, r') => ('\r' :: s, r'))
    | 't' :: r => (parseStr r).map (fun (s, r') => ('\t' :: s, r'))
    | 'u' :: h1 :: h2 :: h3 :: h4 :: r =>
      match hexVal h1, hexVal h2, hexVal h3, hexVal h4 with
      | some a, some b, some c, some d =>
        let code := ((a * 16 + b) * 16 + c) * 16 + d
        let ch := if h : code.isValidChar then Char.ofNatAux code h else '�'
        (parseStr r).map (fun (s, r') => (ch :: s, r'))
      | _, _, _, _ => none
    | _ => none
  | c :: rest =>
    if c.toNat < 0x20 then none
    else (parseStr rest).map (fun (s, r') => (c :: s, r'))

/-- Take a maximal run of decimal digits. -/
def takeDigits (cs : List Char) : List Char × List Char :=
  (cs.takeWhile Char.isDigit, cs.dropWhile Char.isDigit)

/-- Parse a JSON number (after an optional leading minus handled by the
caller); grammar `(0|[1-9][0-9]*)(\.[0-9]+)?([eE][+-]?[0-9]+)?`.  Returns the
consumed literal text and the remainder. -/
def parseNumBody (cs : List Char) : Option (List Char × List Char) :=
  match cs with
  | '0' :: rest =>
    some (['0'], rest)
  | c :: _ =>
    if c.isDigit then
      let (ds, rest) := takeDigits cs
      some (ds, rest)
    else none
  | [] => none

/-- Parse the optional fraction part `\.[0-9]+`. -/
def parseFrac (cs : List Char) : List Char × List Char :=
  match cs with
  | '.' :: rest =>
    let (ds, rest') := takeDigits rest
    if ds.isEmpty then ([], cs) else ('.' :: ds, rest')
  | _ => ([], cs)

/-- Parse the optional exponent part `[eE][+-]?[0-9]+`. -/
def parseExp (cs : List Char) : List Char × List Char :=
  match cs with
  | e :: rest =>
    if e == 'e' || e == 'E' then
      match rest with
      | sgn :: rest2 =>
        if sgn == '+' || sgn == '-' then
          let (ds, rest3) := takeDigits rest2
          if ds.isEmpty then ([], cs) else (e :: sgn :: ds, rest3)
        else
          let (ds, rest3) := takeDigits rest
          if ds.isEmpty then ([], cs) else (e :: ds, rest3)
      | [] => ([], cs)
    else ([], cs)
  | [] => ([], cs)

/-- Parse a full JSON number starting at `cs` (with optional minus),
including CPython's `NaN` / `Infinity` / `-Infinity` constants.  Returns the
literal text and the remainder. -/
def parseNum (cs : List Char) : Option (List Char × List Char) :=
  match cs with
  | '-' :: rest =>
    if rest.take 8 = "Infinity".data then
      some ("-Infinity".data, rest.drop 8)
    else
      match parseNumBody rest with
      | some (ip, r1) =>
        let (fp, r2) := parseFrac r1
        let (ep, r3) := parseExp r2
        some ('-' :: (ip ++ fp ++ ep), r3)
      | none => none
  | _ =>
    if cs.take 3 = "NaN".data then some ("NaN".data, cs.drop 3)
    else if cs.take 8 = "Infinity".data then some ("Infinity".data, cs.drop 8)
    else
      match parseNumBody cs with
      | some (ip, r1) =>
        let (fp, r2) := parseFrac r1
        let (ep, r3) := parseExp r2
        some (ip ++ fp ++ ep, r3)
      | none => none

mutual

/-- Parse one JSON value at the head of the input (after skipping leading
whitespace); `fuel` bounds nesting and list length and is instantiated with
the input length, which always suffices. -/
def parseVal : ℕ → List Char → Option (JsonVal × List Char)
  | 0, _ => none
  | fuel + 1, cs =>
    match skipWs cs with
    | '{' :: rest =>
      (match skipWs rest with
       | '}' :: rest' => some (.jobj [], rest')
       | _ =>
         match parseMembers fuel (skipWs rest) with
         | some (fields, rest') => some (.jobj fields, rest')
         | none => none)
    | '[' :: rest =>
      (match skipWs rest with
       | ']' :: rest' => some (.jarr [], rest')
       | _ =>
         match parseElems fuel (skipWs rest) with
         | some (elems, rest') => some (.jarr elems, rest')
         | none => none)
    | '"' :: rest =>
      (match parseStr rest with
       | some (s, rest') => some (.jstr (String.mk s), rest')
       | none => none)
    | 't' :: 'r' :: 'u' :: 'e' :: rest => some (.jbool true, rest)
    | 'f' :: 'a' :: 'l' :: 's' :: 'e' :: rest => some (.jbool false, rest)
    | 'n' :: 'u' :: 'l' :: 'l' :: rest => some (.jnull, rest)
    | other =>
      match parseNum other with
      | some (lit, rest) => some (.jnum (String.mk lit), rest)
      | none => none

/-- Parse the members of an object (cursor just before the first key's
quote, whitespace already skipped). -/
def parseMembers : ℕ → List Char → Option (List (String × JsonVal) × List Char)
  | 0, _ => none
  | fuel + 1, cs =>
    match cs with
    | '"' :: rest =>
      (match parseStr rest with
       | some (key, r1) =>
         (match skipWs r1 with
          | ':' :: r2 =>
            (match parseVal fuel r2 with
             | some (v, r3) =>
               (match skipWs r3 with
                | ',' :: r4 =>
                  (match parseMembers fuel (skipWs r4) with
                   | some (fields, r5) =>
                     some ((String.mk key, v) :: fields, r5)
                   | none => none)
                | '}' :: r4 => some ([(String.mk key, v)], r4)
                | _ => none)
             | none => none)
          | _ => none)
       | none => none)
    | _ => none

/-- Parse the elements of an array (cursor at the first element, whitespace
already skipped). -/
def parseElems : ℕ → List Char → Option (List JsonVal × List Char)
  | 0, _ => none
  | fuel + 1, cs =>
    match parseVal fuel cs with
    | some (v, r1) =>
      (match skipWs r1 with
       | ',' :: r2 =>
         (match parseElems fuel (skipWs r2) with
          | some (elems, r3) => some (v :: elems, r3)
          | none => none)
       | ']' :: r2 => some ([v], r2)
       | _ => none)
    | none => none

end

/-- `json.loads` on a character list: parse exactly one value, allow
surrounding whitespace, reject trailing input.  `none` models
`json.JSONDecodeError`. -/
def loads (cs : List Char) : Option JsonVal :=
  match parseVal (cs.length + 1) cs with
  | some (v, rest) => if (skipWs rest).isEmpty then some v else none
  | none => none

end Json

namespace SerialInterface

/-- `SerialInterface._parse_response(line)`: decode (identity on the
modelled character data; a `UnicodeDecodeError` cannot arise in the model),
strip, treat an empty line as no response, run `json.loads`
(`JSONDecodeError` → `None`), and discard any value that is not a JSON
object. -/
def parse_response (line : List Char) : Option JsonVal :=
  let text := pyStrip line
  if text.isEmpty then none
  else
    match Json.loads text with
    | none => none
    | some v => if v.isObj then some v else none

/-- `self._serial.in_waiting`: the size of the next available chunk. -/
def inWaiting (s : SIState) : ℕ :=
  match s.pending with
  | [] => 0
  | c :: _ => c.length

/-- Result of the `if self._serial.in_waiting > 0: data = self._serial.read(...)`
step: either the (possibly unchanged) state, or a raised exception. -/
inductive ReadStep where
  | read (s : SIState)
  | raiseSerial (s : SIState)
  | raiseOther (s : SIState)
deriving DecidableEq, Repr

/-- Drain the next available chunk into `_read_buffer` (a no-op when nothing
is waiting; `read` only raises when it is actually called). -/
def tryRead (s : SIState) (env : SerialEnv) : ReadStep :=
  if inWaiting s > 0 then
    match env.readResult with
    | .ok =>
      match s.pending with
      | [] => .read s
      | c :: rest => .read { s with readBuffer := s.readBuffer ++ c, pending := rest }
    | .serialExc => .raiseSerial s
    | .otherExc => .raiseOther s
  else .read s

/-- Split the read buffer at the first newline:
`line, buffer = buffer.split(b'\n', 1)`; `none` when no newline is present. -/
def splitNL : List Char → Option (List Char × List Char)
  | [] => none
  | '\n' :: rest => some ([], rest)
  | c :: rest =>
    match splitNL rest with
    | some (line, r) => some (c :: line, r)
    | none => none

/-- One pass of the blocking read loop of `read_response`.  `remaining` is
`max_iterations - iterations`; the wall clock is idealized as
`0.01 * iterations` (each `time.sleep(0.01)` advances it by exactly its
argument).  Exhausting the iterations or the timeout logs a warning and
returns `None`. -/
def readLoop (env : SerialEnv) (timeout : ℚ) :
    ℕ → ℕ → SIState → SIRes (Option JsonVal)
  | 0, _, s => .ok none { s with lockHeld := false }
  | remaining + 1, iterations, s =>
    match tryRead s env with
    | .raiseSerial s2 => .ok none { s2 with connected := false, lockHeld := false }
    | .raiseOther s2 => .ok none { s2 with lockHeld := false }
    | .read s2 =>
      match splitNL s2.readBuffer with
      | some (line, rest) =>
        .ok (parse_response line) { s2 with readBuffer := rest, lockHeld := false }
      | none =>
        if timeout ≤ (1 / 100 : ℚ) * iterations then
          .ok none { s2 with lockHeld := false }
        else
          readLoop env timeout remaining (iterations + 1)
            { s2 with sleeps := s2.sleeps ++ [(1 / 100 : ℚ)] }

/-- `SerialInterface.read_response(blocking, timeout)`.  Acquires the lock,
returns `None` when disconnected, resolves `timeout or SERIAL_TIMEOUT`
(`None` and `0.0` both fall back to the config default), then either runs
the bounded polling loop (`max_iterations = int(timeout * 100)`) or performs
a single non-blocking drain-and-split. -/
def read_response (s : SIState) (env : SerialEnv) (blocking : Bool)
    (timeoutArg : Option ℚ) : SIRes (Option JsonVal) :=
  if s.lockHeld then .deadlock s else
  let s1 : SIState := { s with lockHeld := true }
  if s1.connected = false then .ok none { s1 with lockHeld := false }
  else
    let timeout : ℚ :=
      match timeoutArg with
      | none => SERIAL_TIMEOUT
      | some q => if q = 0 then SERIAL_TIMEOUT else q
    if blocking then
      readLoop env timeout (pyInt (timeout * 100)).toNat 0 s1
    else
      match tryRead s1 env with
      | .raiseSerial s2 => .ok none { s2 with connected := false, lockHeld := false }
      | .raiseOther s2 => .ok none { s2 with lockHeld := false }
      | .read s2 =>
        match splitNL s2.readBuffer with
        | some (line, rest) =>
          .ok (parse_response line) { s2 with readBuffer := rest, lockHeld := false }
        | none => .ok none { s2 with lockHeld := false }

end SerialInterface

/-! ## A model of the `re` fragment used by `parser.py`

Every regex in `pi/command_parser/parser.py` is built from: literal text,
`\s+`, `\s*`, `\d+`, `\d*`, `[:\s]*`, optional pieces `(...)?` / `c?`,
non-capturing alternation `(?:a|b)`, one capturing group, word boundaries
`\b`, and a single negative lookahead `(?!...)`.  The engine below
implements Python's backtracking semantics for exactly that fragment:
`re.search` tries start offsets left to right and, at a given start,
alternatives in order with greedy quantifiers, returning the first overall
success. -/

/-- Single-character classes occurring in the patterns. -/
inductive RChar where
  | lit (c : Char)
  | ws
  | digit
  | wsOrColon
deriving DecidableEq, Repr

/-- Does class `rc` accept character `c`?  `ic` is `re.IGNORECASE` (all
pattern literals in the source are lowercase). -/
def RChar.accepts (ic : Bool) (rc : RChar) (c : Char) : Bool :=
  match rc with
  | .lit l => if ic then pyLowerChar c == l else c == l
  | .ws => isPySpace c
  | .digit => c.isDigit
  | .wsOrColon => c == ':' || isPySpace c

/-- Regex abstract syntax for the fragment used by the source. -/
inductive Re where
  | eps
  | ch (rc : RChar)
  | plus (rc : RChar)
  | star (rc : RChar)
  | opt (r : Re)
  | alt (r1 r2 : Re)
  | cat (r1 r2 : Re)
  | grp (r : Re)
  | wb
  | nla (r : Re)
deriving Repr

/-- Literal text as a regex. -/
def Re.str (s : String) : Re :=
  s.data.foldr (fun c r => Re.cat (Re.ch (RChar.lit c)) r) Re.eps

/-- Concatenation of a pattern list. -/
def Re.cats (rs : List Re) : Re := rs.foldr Re.cat Re.eps

/-- Python `\w` (ASCII): letters, digits, underscore. -/
def isWordChar (c : Char) : Bool := c.isAlphanum || c == '_'

/-- Python `\b`: exactly one of the two neighbouring positions holds a word
character. -/
def atWordBoundary (s : List Char) (i : ℕ) : Bool :=
  let before := if i = 0 then false else isWordChar (s.getD (i - 1) ' ')
  let after :=
    match s.get? i with
    | some c => isWordChar c
    | none => false
  before != after

/-- Length of the maximal run of characters accepted by `rc` starting at
offset `i`. -/
def runLen (ic : Bool) (rc : RChar) (s : List Char) (i : ℕ) : ℕ :=
  ((s.drop i).takeWhile (rc.accepts ic)).length

/-- Greedy quantifier backtracking: try the continuation at `base + n`,
then `base + (n-1)`, …, down to `base + lo`. -/
def tryFrom (k : ℕ → Option (ℕ × Option (ℕ × ℕ))) (base : ℕ) :
    ℕ → ℕ → Option (ℕ × Option (ℕ × ℕ))
  | n, lo =>
    if n < lo then none
    else
      match k (base + n) with
      | some r => some r
      | none =>
        match n with
        | 0 => none
        | m + 1 => tryFrom k base m lo

/-- The backtracking matcher.  `reM ic s r i cap k` matches `r` against `s`
starting at offset `i` with current group-1 capture `cap`, calling the
continuation `k` with the end offset and capture for each way `r` can match,
in Python's preference order; the first continuation success is returned.
The overall result is `(end offset, group-1 span)`. -/
def reM (ic : Bool) (s : List Char) :
    Re → ℕ → Option (ℕ × ℕ) →
    (ℕ → Option (ℕ × ℕ) → Option (ℕ × Option (ℕ × ℕ))) →
    Option (ℕ × Option (ℕ × ℕ))
  | .eps, i, cap, k => k i cap
  | .ch rc, i, cap, k =>
    (match s.get? i with
     | some c => if rc.accepts ic c then k (i + 1) cap else none
     | none => none)
  | .plus rc, i, cap, k => tryFrom (fun j => k j cap) i (runLen ic rc s i) 1
  | .star rc, i, cap, k => tryFrom (fun j => k j cap) i (runLen ic rc s i) 0
  | .opt r, i, cap, k =>
    (match reM ic s r i cap k with
     | some res => some res
     | none => k i cap)
  | .alt r1 r2, i, cap, k =>
    (match reM ic s r1 i cap k with
     | some res => some res
     | none => reM ic s r2 i cap k)
  | .cat r1 r2, i, cap, k => reM ic s r1 i cap (fun j c => reM ic s r2 j c k)
  | .grp r, i, cap, k => reM ic s r i cap (fun j _ => k j (some (i, j)))
  | .wb, i, cap, k => if atWordBoundary s i then k i cap else none
  | .nla r, i, cap, k =>
    (match reM ic s r i cap (fun j c => some (j, c)) with
     | some _ => none
     | none => k i cap)

/-- A successful `re.search` result: `match.start()`, `match.end()`, and the
group-1 span when the group participated in the match. -/
structure RMatch where
  start : ℕ
  stop : ℕ
  cap : Option (ℕ × ℕ)
deriving DecidableEq, Repr

/-- Attempt to match `r` anchored at offset `i`. -/
def reMatchAt (ic : Bool) (r : Re) (s : List Char) (i : ℕ) : Option RMatch :=
  match reM ic s r i none (fun j c => some (j, c)) with
  | some (j, c) => some ⟨i, j, c⟩
  | none => none

/-- Try start offsets `i, i+1, …` (bounded by `fuel`, instantiated with
`length + 1` so that every offset up to and including the end is tried). -/
def reSearchAux (ic : Bool) (r : Re) (s : List Char) : ℕ → ℕ → Option RMatch
  | 0, _ => none
  | fuel + 1, i =>
    match reMatchAt ic r s i with
    | some m => some m
    | none => reSearchAux ic r s fuel (i + 1)

/-- `re.search(pattern, s)`: the leftmost match, or `None`. -/
def reSearch (ic : Bool) (r : Re) (s : List Char) : Option RMatch :=
  reSearchAux ic r s (s.length + 1) 0

/-- The text of group 1 of a match (`match.group(1)`), `none` when the group
did not participate. -/
def groupText (s : List Char) (m : RMatch) : Option (List Char) :=
  match m.cap with
  | some (a, b) => some ((s.take b).drop a)
  | none => none

/-- `re.split(pattern, s)`: pieces between successive leftmost matches.  All
patterns the source splits on match at least one character. -/
def reSplitAux (ic : Bool) (r : Re) : ℕ → List Char → List (List Char)
  | 0, s => [s]
  | fuel + 1, s =>
    match reSearch ic r s with
    | none => [s]
    | some m =>
      if m.stop ≤ m.start then [s]
      else s.take m.start :: reSplitAux ic r fuel (s.drop m.stop)

/-- `re.split(pattern, s)`. -/
def reSplit (ic : Bool) (r : Re) (s : List Char) : List (List Char) :=
  reSplitAux ic r (s.length + 1) s

/-! ### `float` on matched number strings -/

/-- Decimal digits to a natural number. -/
def digitsToNat (l : List Char) : ℕ :=
  l.foldl (fun acc c => acc * 10 + (c.toNat - '0'.toNat)) 0

/-- `float(...)` on a matched digit string: digits, optionally a dot and
more digits (possibly a trailing bare dot, as `\d+\.?\d*` allows).  Exact on
these inputs up to the usual binary rounding, which no code path observes. -/
def pyFloatOfChars (cs : List Char) : ℚ :=
  let ip := cs.takeWhile (fun c => c ≠ '.')
  let rest := cs.dropWhile (fun c => c ≠ '.')
  match rest with
  | [] => (digitsToNat ip : ℚ)
  | _ :: frac => (digitsToNat ip : ℚ) + (digitsToNat frac : ℚ) / (10 ^ frac.length : ℚ)

/-! ## `pi/command_parser/parser.py` -/

namespace CommandParser

/-- Class defaults from `CommandParser`. -/
def DEFAULT_SPEED : ℚ := 0.4

def DEFAULT_ANGLE : ℚ := 90.0

def DEFAULT_SIDE_LENGTH : ℚ := 0.5

def DEFAULT_RADIUS : ℚ := 0.5

def DEFAULT_STAR_SIZE : ℚ := 0.5

def DEFAULT_SEGMENT_LENGTH : ℚ := 0.3

def DEFAULT_ZIGZAG_ANGLE : ℚ := 45.0

def DEFAULT_ZIGZAG_REPETITIONS : ℚ := 4

def DEFAULT_SPIN_DURATION : ℚ := 2.0

def DEFAULT_SPIN_SPEED : ℚ := 0.5

/-- `SPEED_MODIFIERS` in dict insertion order. -/
def SPEED_MODIFIERS : List (String × ℚ) :=
  [("fast", 0.7), ("slow", 0.2), ("slowly", 0.2), ("quickly", 0.7),
   ("quick", 0.7), ("rapidly", 0.8), ("rapid", 0.8), ("a bit faster", 0.6),
   ("a bit slower", 0.3), ("a bit quicker", 0.6), ("very fast", 0.9),
   ("very slow", 0.15), ("very quickly", 0.9), ("very slowly", 0.15)]

/-- Stable insertion into a list sorted by descending key length. -/
def insertByLenDesc (x : String × ℚ) : List (String × ℚ) → List (String × ℚ)
  | [] => [x]
  | y :: ys =>
    if y.1.length < x.1.length then x :: y :: ys else y :: insertByLenDesc x ys

/-- Python `sorted(items, key=lambda kv: len(kv[0]), reverse=True)` — a
stable descending sort by key length. -/
def sortedByLenDesc (l : List (String × ℚ)) : List (String × ℚ) :=
  l.foldl (fun acc x => insertByLenDesc x acc) []

/-- `self._transition_words`. -/
def transitionWords : List String := ["then", "and", "then move", "then turn"]

/-! ### The regex patterns of `_build_synonym_patterns` and friends -/

/-- Shorthand for literal pattern text. -/
def rs (s : String) : Re := Re.str s

/-- Pattern `\s+`. -/
def ws1 : Re := Re.plus RChar.ws

/-- Pattern `\s*`. -/
def ws0 : Re := Re.star RChar.ws

/-- Pattern `(\d+(?:\.\d+)?)` — the capturing number group of the angle /
duration patterns. -/
def num1 : Re :=
  Re.grp (Re.cat (Re.plus RChar.digit)
    (Re.opt (Re.cat (Re.ch (RChar.lit '.')) (Re.plus RChar.digit))))

/-- Pattern `(\d+\.?\d*)` — the capturing number group of `_extract_speed` /
`_extract_number`. -/
def num2 : Re :=
  Re.grp (Re.cats [Re.plus RChar.digit, Re.opt (Re.ch (RChar.lit '.')),
                   Re.star RChar.digit])

/-- Pattern `degrees?`. -/
def degreesOpt : Re := Re.cat (rs "degree") (Re.opt (rs "s"))

/-- Pattern `seconds?`. -/
def secondsOpt : Re := Re.cat (rs "second") (Re.opt (rs "s"))

/-- `_build_synonym_patterns`, in source order. -/
def synonyms : CommandType → List Re
  | .move_forward =>
    [Re.cats [rs "move", ws1, rs "forward"],
     Re.cats [rs "go", ws1, rs "forward"],
     rs "forward",
     Re.cats [rs "move", ws1, rs "ahead"],
     Re.cats [rs "go", ws1, rs "ahead"]]
  | .move_backward =>
    [Re.cats [rs "move", ws1, rs "backward"],
     Re.cats [rs "go", ws1, rs "backward"],
     rs "backward",
     Re.cats [rs "back", ws1, rs "up"],
     rs "reverse"]
  | .rotate_clockwise =>
    [Re.cats [rs "rotate", ws1, rs "clockwise"],
     Re.cats [rs "turn", ws1, rs "clockwise"],
     Re.cats [rs "spin", ws1, rs "right"],
     Re.cats [rs "rotate", ws1, rs "right"]]
  | .rotate_counterclockwise =>
    [Re.cats [rs "rotate", ws1, rs "counterclockwise"],
     Re.cats [rs "rotate", ws1, rs "counter", ws1, rs "clockwise"],
     Re.cats [rs "turn", ws1, rs "counterclockwise"],
     Re.cats [rs "turn", ws1, rs "counter", ws1, rs "clockwise"],
     Re.cats [rs "spin", ws1, rs "left"],
     Re.cats [rs "rotate", ws1, rs "left"]]
  | .stop =>
    [rs "stop", rs "halt", Re.cats [rs "emergency", ws1, rs "stop"], rs "cease"]
  | .turn_left =>
    [Re.cats [rs "turn", ws1, rs "left"], Re.cats [rs "move", ws1, rs "left"]]
  | .turn_right =>
    [Re.cats [rs "turn", ws1, rs "right"], Re.cats [rs "move", ws1, rs "right"]]
  | .move_forward_for_time =>
    [Re.cats [rs "move", ws1, rs "forward", ws1, rs "for"],
     Re.cats [rs "go", ws1, rs "forward", ws1, rs "for"]]
  | .move_backward_for_time =>
    [Re.cats [rs "move", ws1, rs "backward", ws1, rs "for"],
     Re.cats [rs "go", ws1, rs "backward", ws1, rs "for"]]
  | .make_square =>
    [Re.cats [rs "make", ws1, Re.opt (rs "a"), ws0, rs "square"],
     Re.cats [rs "create", ws1, Re.opt (rs "a"), ws0, rs "square"]]
  | .make_circle =>
    [Re.cats [rs "make", ws1, Re.opt (rs "a"), ws0, rs "circle"],
     Re.cats [rs "create", ws1, Re.opt (rs "a"), ws0, rs "circle"]]
  | .make_star =>
    [Re.cats [rs "make", ws1, Re.opt (rs "a"), ws0, rs "star"],
     Re.cats [rs "create", ws1, Re.opt (rs "a"), ws0, rs "star"]]
  | .zigzag =>
    [rs "zigzag", Re.cats [rs "zig", ws1, rs "zag"]]
  | .spin => [rs "spin"]
  | .dance => [rs "dance"]

/-- `_matches_pattern(text, command_type)`: some synonym pattern matches
(always with `re.IGNORECASE`). -/
def matches_pattern (text : List Char) (ct : CommandType) : Bool :=
  (synonyms ct).any (fun p => (reSearch true p text).isSome)

/-- The `\b<modifier>\b` pattern used to look up a speed modifier. -/
def modifierRe (m : String) : Re := Re.cats [Re.wb, rs m, Re.wb]

/-- `_extract_speed(text, default)`: an explicit
`(?:at\s+)?speed\s*[:\s]*(\d+\.?\d*)` value clamped to `[0, 1]`, else the
first (longest-phrase-first) matching modifier's table value, else the
default. -/
def extract_speed (text : List Char) (dflt : ℚ) : ℚ :=
  let explicitRe : Re :=
    Re.cats [Re.opt (Re.cat (rs "at") ws1), rs "speed", ws0,
             Re.star RChar.wsOrColon, num2]
  match reSearch false explicitRe text with
  | some m =>
    (match groupText text m with
     | some g => max 0 (min 1 (pyFloatOfChars g))
     | none => dflt)
  | none =>
    match (sortedByLenDesc SPEED_MODIFIERS).find?
        (fun mv => (reSearch true (modifierRe mv.1) text).isSome) with
    | some mv => mv.2
    | none => dflt

/-- `_extract_number(text, keyword, default)`:
`{keyword}\s*[:\s]*(\d+\.?\d*)` with `re.IGNORECASE`. -/
def extract_number (text : List Char) (keyword : String) (dflt : ℚ) : ℚ :=
  let pat : Re := Re.cats [rs keyword, ws0, Re.star RChar.wsOrColon, num2]
  match reSearch true pat text with
  | some m =>
    (match groupText text m with
     | some g => pyFloatOfChars g
     | none => dflt)
  | none => dflt

/-- `_extend_match_for_parameters(text, end_pos)`: strip the tail after the
match and absorb a leading `N degrees` / `for N seconds` / `at speed N`
(anchored `^` patterns, `re.IGNORECASE`).  Note the source adds the end
offset measured in the *stripped* tail back onto `end_pos`, so leading
whitespace shortens the absorbed span by its own length. -/
def extend_match_for_parameters (text : List Char) (endPos : ℕ) : ℕ :=
  let remaining := pyStrip (text.drop endPos)
  match reMatchAt true (Re.cats [ws0, num1, ws0, degreesOpt]) remaining 0 with
  | some m => endPos + m.stop
  | none =>
    match reMatchAt true
        (Re.cats [ws0, rs "for", ws1, num1, ws0, secondsOpt]) remaining 0 with
    | some m => endPos + m.stop
    | none =>
      match reMatchAt true
          (Re.cats [ws0, rs "at", ws1, rs "speed", ws1, num1]) remaining 0 with
      | some m => endPos + m.stop
      | none => endPos

/-- `_extract_command_with_modifier(text, start, end)`: the ±12-character
window around the (parameter-extended) match span.  The source then scans
the window for the longest modifier phrase within ±10 of the span, but both
branches of that scan return the untouched window, so the scan does not
affect the result. -/
def extract_command_with_modifier (text : List Char) (start stop : ℕ) :
    List Char :=
  let extended := extend_match_for_parameters text stop
  let wstart := start - 12
  let wend := min text.length (extended + 12)
  (text.take wend).drop wstart

/-- `_parse_primitive(text)`. -/
def parse_primitive (text : List Char) : Option Command :=
  let speed := extract_speed text DEFAULT_SPEED
  if matches_pattern text .move_forward then
    some ⟨.move_forward, [("speed", .num speed)], PRIORITY_NORMAL⟩
  else if matches_pattern text .move_backward then
    some ⟨.move_backward, [("speed", .num speed)], PRIORITY_NORMAL⟩
  else if matches_pattern text .rotate_clockwise then
    some ⟨.rotate_clockwise, [("speed", .num speed)], PRIORITY_NORMAL⟩
  else if matches_pattern text .rotate_counterclockwise then
    some ⟨.rotate_counterclockwise, [("speed", .num speed)], PRIORITY_NORMAL⟩
  else if matches_pattern text .stop then
    some ⟨.stop, [], PRIORITY_STOP⟩
  else none

/-- Pattern `(?:turn|move)\s+left(?:\s+(\d+(?:\.\d+)?)\s*degrees?)?` (and
the `right` analogue). -/
def turnSideRe (side : String) : Re :=
  Re.cats [Re.alt (rs "turn") (rs "move"), ws1, rs side,
           Re.opt (Re.cats [ws1, num1, ws0, degreesOpt])]

/-- Pattern `(?:move|go)\s+<dir>\s+for\s+(\d+(?:\.\d+)?)\s*seconds?`. -/
def moveForTimeRe (dir : String) : Re :=
  Re.cats [Re.alt (rs "move") (rs "go"), ws1, rs dir, ws1, rs "for", ws1,
           num1, ws0, secondsOpt]

/-- `_parse_intermediate(text)`. -/
def parse_intermediate (text : List Char) : Option Command :=
  let speed := extract_speed text DEFAULT_SPEED
  match reSearch false (turnSideRe "left") text with
  | some m =>
    let angle :=
      match groupText text m with
      | some g => pyFloatOfChars g
      | none => DEFAULT_ANGLE
    some ⟨.turn_left, [("angle", .num angle), ("speed", .num speed)], PRIORITY_NORMAL⟩
  | none =>
  match reSearch false (turnSideRe "right") text with
  | some m =>
    let angle :=
      match groupText text m with
      | some g => pyFloatOfChars g
      | none => DEFAULT_ANGLE
    some ⟨.turn_right, [("angle", .num angle), ("speed", .num speed)], PRIORITY_NORMAL⟩
  | none =>
  match reSearch false (moveForTimeRe "forward") text with
  | some m =>
    let duration :=
      match groupText text m with
      | some g => pyFloatOfChars g
      | none => 0
    some ⟨.move_forward_for_time,
          [("duration", .num duration), ("speed", .num speed)], PRIORITY_NORMAL⟩
  | none =>
  match reSearch false (moveForTimeRe "backward") text with
  | some m =>
    let duration :=
      match groupText text m with
      | some g => pyFloatOfChars g
      | none => 0
    some ⟨.move_backward_for_time,
          [("duration", .num duration), ("speed", .num speed)], PRIORITY_NORMAL⟩
  | none =>
  if matches_pattern text .make_square then
    let side_length := extract_number text "side" DEFAULT_SIDE_LENGTH
    some ⟨.make_square,
          [("side_length", .num side_length), ("speed", .num speed)], PRIORITY_NORMAL⟩
  else if matches_pattern text .make_circle then
    let radius := extract_number text "radius" DEFAULT_RADIUS
    let directionRe : Re :=
      Re.grp (Re.alt (rs "left") (Re.alt (rs "right")
        (Re.alt (rs "counterclockwise") (rs "clockwise"))))
    let direction : String :=
      match reSearch false directionRe text with
      | some m =>
        (match groupText text m with
         | some g =>
           if g = "right".data ∨ g = "clockwise".data then "right" else "left"
         | none => "left")
      | none => "left"
    some ⟨.make_circle,
          [("radius", .num radius), ("speed", .num speed),
           ("direction", .str direction)], PRIORITY_NORMAL⟩
  else if matches_pattern text .make_star then
    let size := extract_number text "size" DEFAULT_STAR_SIZE
    some ⟨.make_star, [("size", .num size), ("speed", .num speed)], PRIORITY_NORMAL⟩
  else if matches_pattern text .zigzag then
    let segment_length := extract_number text "segment" DEFAULT_SEGMENT_LENGTH
    let angle := extract_number text "angle" DEFAULT_ZIGZAG_ANGLE
    let repetitions := pyInt (extract_number text "repetitions" DEFAULT_ZIGZAG_REPETITIONS)
    some ⟨.zigzag,
          [("segment_length", .num segment_length), ("angle", .num angle),
           ("repetitions", .int repetitions), ("speed", .num speed)], PRIORITY_NORMAL⟩
  else if matches_pattern text .spin then
    let duration :=
      match reSearch false (Re.cats [rs "for", ws1, num1, ws0, secondsOpt]) text with
      | some m =>
        (match groupText text m with
         | some g => pyFloatOfChars g
         | none => DEFAULT_SPIN_DURATION)
      | none => DEFAULT_SPIN_DURATION
    let spin_speed := extract_speed text DEFAULT_SPIN_SPEED
    some ⟨.spin, [("duration", .num duration), ("speed", .num spin_speed)], PRIORITY_NORMAL⟩
  else if matches_pattern text .dance then
    some ⟨.dance, [], PRIORITY_NORMAL⟩
  else none

/-! ### `_parse_segment_commands` -/

/-- `(?:turn|rotate)\s+clockwise(?:\s+(\d+(?:\.\d+)?)\s*degrees?)`. -/
def angleCwRe : Re :=
  Re.cats [Re.alt (rs "turn") (rs "rotate"), ws1, rs "clockwise",
           Re.cats [ws1, num1, ws0, degreesOpt]]

/-- `(?:turn|rotate)\s+counter\s*clockwise(?:\s+(\d+(?:\.\d+)?)\s*degrees?)`. -/
def angleCcwRe : Re :=
  Re.cats [Re.alt (rs "turn") (rs "rotate"), ws1, rs "counter", ws0,
           rs "clockwise", Re.cats [ws1, num1, ws0, degreesOpt]]

/-- `(?:turn|rotate)(?!\s+(?:clockwise|counter\s*clockwise|left|right))\s+(\d+(?:\.\d+)?)\s*degrees?`. -/
def angleNoDirRe : Re :=
  Re.cats [Re.alt (rs "turn") (rs "rotate"),
           Re.nla (Re.cat ws1 (Re.alt (rs "clockwise")
             (Re.alt (Re.cats [rs "counter", ws0, rs "clockwise"])
               (Re.alt (rs "left") (rs "right"))))),
           ws1, num1, ws0, degreesOpt]

/-- The running best-match state of the `_parse_segment_commands` scan:
`best_match`'s command type, `best_start`, `best_end`, `angle_match_info`.
Note the source never resets `angle_match_info` when a later non-angle
pattern wins the leftmost race. -/
structure ScanState where
  best : Option CommandType
  bestStart : ℕ
  bestEnd : ℕ
  angleInfo : Option (String × ℚ)
deriving Repr

/-- One explicit-angle rotate check: accept the search result when the
capture group is truthy and the start beats the current best. -/
def scanAngle (rem : List Char) (pat : Re) (ct : CommandType)
    (direction : String) (st : ScanState) : ScanState :=
  match reSearch true pat rem with
  | some m =>
    (match groupText rem m with
     | some g =>
       if m.start < st.bestStart then
         { best := some ct, bestStart := m.start, bestEnd := m.stop,
           angleInfo := some (direction, pyFloatOfChars g) }
       else st
     | none => st)
  | none => st

/-- The intermediate-command scan order of the source's first `for` loop. -/
def intermediateOrder : List CommandType :=
  [.turn_left, .turn_right, .move_forward_for_time, .move_backward_for_time,
   .make_square, .make_circle, .make_star, .zigzag, .spin, .dance]

/-- The primitive-command scan order of the source's second `for` loop. -/
def primitiveOrder : List CommandType :=
  [.move_forward, .move_backward, .rotate_clockwise, .rotate_counterclockwise,
   .stop]

/-- The intermediate loop: any strictly-earlier match wins and records an
end extended over trailing parameter syntax. -/
def scanIntermediates (rem : List Char) (st : ScanState) : ScanState :=
  (intermediateOrder.flatMap (fun ct => (synonyms ct).map (fun p => (ct, p)))).foldl
    (fun st ctp =>
      match reSearch true ctp.2 rem with
      | some m =>
        if m.start < st.bestStart then
          { best := some ctp.1, bestStart := m.start,
            bestEnd := extend_match_for_parameters rem m.stop,
            angleInfo := st.angleInfo }
        else st
      | none => st)
    st

/-- The primitive loop: any strictly-earlier match wins with an unextended
end. -/
def scanPrimitives (rem : List Char) (st : ScanState) : ScanState :=
  (primitiveOrder.flatMap (fun ct => (synonyms ct).map (fun p => (ct, p)))).foldl
    (fun st ctp =>
      match reSearch true ctp.2 rem with
      | some m =>
        if m.start < st.bestStart then
          { best := some ctp.1, bestStart := m.start, bestEnd := m.stop,
            angleInfo := st.angleInfo }
        else st
      | none => st)
    st

/-- The whole best-match scan of one `while` iteration: the three
explicit-angle searches, then intermediates, then primitives. -/
def findBest (rem : List Char) : ScanState :=
  let st0 : ScanState :=
    { best := none, bestStart := rem.length, bestEnd := 0, angleInfo := none }
  let st1 := scanAngle rem angleCwRe .rotate_clockwise "clockwise" st0
  let st2 := scanAngle rem angleCcwRe .rotate_counterclockwise "counterclockwise" st1
  let st3 := scanAngle rem angleNoDirRe .rotate_counterclockwise "counterclockwise" st2
  scanPrimitives rem (scanIntermediates rem st3)

/-- Build the command for the winning match: a stale-or-fresh
`angle_match_info` always produces an explicit-angle rotate; otherwise
intermediate kinds go to `_parse_intermediate` and primitive kinds to
`_parse_primitive`, all on the ±12 modifier window. -/
def buildCommand (rem : List Char) (ct : CommandType) (st : ScanState) :
    Option Command :=
  let cwm := extract_command_with_modifier rem st.bestStart st.bestEnd
  match st.angleInfo with
  | some (direction, angle) =>
    let speed := extract_speed cwm DEFAULT_SPEED
    if direction = "counterclockwise" then
      some ⟨.rotate_counterclockwise,
            [("angle", .num angle), ("speed", .num speed)], PRIORITY_NORMAL⟩
    else
      some ⟨.rotate_clockwise,
            [("angle", .num angle), ("speed", .num speed)], PRIORITY_NORMAL⟩
  | none =>
    if ct = .turn_left ∨ ct = .turn_right then parse_intermediate cwm
    else if ct = .move_forward_for_time ∨ ct = .move_backward_for_time ∨
            ct = .make_square ∨ ct = .make_circle ∨ ct = .make_star ∨
            ct = .zigzag ∨ ct = .spin ∨ ct = .dance then
      parse_intermediate cwm
    else parse_primitive cwm

/-- The `while remaining_text.strip():` loop of `_parse_segment_commands`.
`fuel` bounds the iteration count; every winning match consumes at least one
character, so `length + 1` suffices. -/
def parse_segment_commandsAux : ℕ → List Char → List Command
  | 0, _ => []
  | fuel + 1, rem =>
    if (pyStrip rem).isEmpty then []
    else
      let st := findBest rem
      match st.best with
      | none => []
      | some ct =>
        let rest := parse_segment_commandsAux fuel (pyStrip (rem.drop st.bestEnd))
        match buildCommand rem ct st with
        | some c => c :: rest
        | none => rest

/-- `_parse_segment_commands(text)`. -/
def parse_segment_commands (text : List Char) : List Command :=
  parse_segment_commandsAux (text.length + 1) text

/-! ### `parse` -/

/-- `^jarvis\s*,?\s*` (with `re.IGNORECASE`). -/
def wakeJarvisRe : Re :=
  Re.cats [rs "jarvis", ws0, Re.opt (Re.ch (RChar.lit ',')), ws0]

/-- `^hey\s+jarvis\s*,?\s*` (with `re.IGNORECASE`). -/
def wakeHeyJarvisRe : Re :=
  Re.cats [rs "hey", ws1, rs "jarvis", ws0, Re.opt (Re.ch (RChar.lit ',')), ws0]

/-- `_remove_wake_word(text)`: strip an optional leading wake-word prefix
(the `^`-anchored `re.sub` calls replace at most the one match at offset 0),
then strip whitespace. -/
def remove_wake_word (text : List Char) : List Char :=
  let t1 :=
    match reMatchAt true wakeJarvisRe text 0 with
    | some m => text.drop m.stop
    | none => text
  let t2 :=
    match reMatchAt true wakeHeyJarvisRe t1 0 with
    | some m => t1.drop m.stop
    | none => t1
  pyStrip t2

/-- `\b<transition>\b`. -/
def transitionRe (tr : String) : Re := Re.cats [Re.wb, rs tr, Re.wb]

/-- `_split_commands(text)`: split on `,\s*`, then split each nonempty
segment on the first transition word that occurs in it (`for … else` over
`["then", "and", "then move", "then turn"]`); fall back to `[text]` when
everything vanished. -/
def split_commands (text : List Char) : List (List Char) :=
  let segments := reSplit false (Re.cat (Re.ch (RChar.lit ',')) ws0) text
  let newSegments :=
    segments.foldl
      (fun acc seg =>
        let seg := pyStrip seg
        if seg.isEmpty then acc
        else
          match transitionWords.find?
              (fun tr => (reSearch true (transitionRe tr) seg).isSome) with
          | some tr =>
            acc ++ ((reSplit true (transitionRe tr) seg).filterMap
              (fun p => let p' := pyStrip p; if p'.isEmpty then none else some p'))
          | none => acc ++ [seg])
      []
  if newSegments.isEmpty then [text] else newSegments

/-- `CommandParser.parse(text)`: normalize (strip + lower), strip the wake
word, split into segments, parse each segment, concatenate; `None` when the
input is blank or nothing was recognized. -/
def parse (text : String) : Option (List Command) :=
  let t0 := text.data
  if t0.isEmpty ∨ (pyStrip t0).isEmpty then none
  else
    let t1 := remove_wake_word (pyLower (pyStrip t0))
    if t1.isEmpty then none
    else
      let commands :=
        (split_commands t1).foldl
          (fun acc seg =>
            let seg := pyStrip seg
            if seg.isEmpty then acc
            else
              let segCmds := parse_segment_commands seg
              if segCmds.isEmpty then acc else acc ++ segCmds)
          []
      if commands.isEmpty then none else some commands

end CommandParser

/-! ## Concrete values used to instantiate the claim theorems -/

/-- The `Command(CommandType.MOVE_FORWARD, {"speed": 0.4}, PRIORITY_NORMAL)`
value used throughout the repository's queue tests. -/
def sampleMoveForward : Command :=
  ⟨.move_forward, [("speed", PVal.num 0.4)], PRIORITY_NORMAL⟩

/-- The observable return value of a method run: `some a` when the method
returned `a` normally, `none` when it raised, deadlocked or ran out of
fuel. -/
def SIRes.retVal {α : Type} : SIRes α → Option α
  | .ok a _s => some a
  | .exc _s => none
  | .deadlock _s => none
  | .nofuel => none

/-- A freshly constructed interface on an explicit port (disconnected, lock
free). -/
def disconnState : SIState := SIState.initExplicit "/dev/ttyUSB0"

/-- A connected interface holding an open port. -/
def connState : SIState :=
  { SIState.initExplicit "/dev/ttyUSB0" with connected := true, serial := some true }

/-- An environment in which every port operation succeeds. -/
def envOpenOk : SerialEnv :=
  { globUsb := [], globAcm := [], openResult := .ok, writeResult := .ok,
    readResult := .ok }

/-- An environment in which opening the port raises `serial.SerialException`. -/
def envOpenFail : SerialEnv :=
  { globUsb := [], globAcm := [], openResult := .serialExc, writeResult := .ok,
    readResult := .ok }

/-- An environment in which writing raises `serial.SerialException` while
everything else succeeds. -/
def envWriteFail : SerialEnv :=
  { globUsb := [], globAcm := [], openResult := .ok, writeResult := .serialExc,
    readResult := .ok }

/-- The priority discipline of the parser: a command's priority is
`PRIORITY_NORMAL` (0) or `PRIORITY_STOP` (100), and it is `PRIORITY_STOP`
exactly on `stop` commands. -/
def prioOk (c : Command) : Prop :=
  (c.priority = PRIORITY_NORMAL ∨ c.priority = PRIORITY_STOP) ∧
  (c.priority = PRIORITY_STOP ↔ c.command_type = CommandType.stop)

/-! ## Claim theorems -/

/-- C1.  The claim says that after enqueuing `n` commands (below capacity),
repeated `dequeue` calls return exactly those commands, sorted by descending
priority and FIFO within equal priority.  The shipped `CommandQueueManager`
bodies are unimplemented stubs: already for a single command, `enqueue`
returns `False` (instead of inserting) and the following `dequeue` returns
`None` (instead of the command), so the dequeued sequence is empty rather
than the enqueued commands.  This theorem evaluates the code at that failing
input. -/
theorem C1_queue_stub_enqueue_dequeue_eval :
    ((CommandQueueManager.init 10).enqueue sampleMoveForward).1 = false ∧
    ((((CommandQueueManager.init 10).enqueue sampleMoveForward).2).dequeue
        (some 1)).1 = none :=
  ⟨rfl, rfl⟩

/-- C2.  The claim says a queue of max size 2 returns `True` for the first
two enqueues and `False` only for the third.  In the code, `enqueue` is an
unimplemented stub whose body is `return False`, so already the first
enqueue on the fresh queue returns `False`.  This theorem evaluates the code
at that failing input (and notes the stub rejects uniformly, also on a
second call). -/
theorem C2_queue_stub_capacity_eval :
    ((CommandQueueManager.init 2).enqueue sampleMoveForward).1 = false ∧
    ((((CommandQueueManager.init 2).enqueue sampleMoveForward).2).enqueue
        sampleMoveForward).1 = false :=
  ⟨rfl, rfl⟩

/-- C3.  The claim says `parse("move forward")` returns `none` because no
wake word is present, and `parse("jarvis move forward")` returns one
`move_forward` command with default speed 0.4.  The code's
`_remove_wake_word` only *strips* a leading wake word and `parse` never
requires one, so `parse("move forward")` returns the very same one-command
list as `parse("jarvis move forward")` instead of `none` (the repository's
own test `test_command_without_wake_word_fails` asserts the `none`
behaviour).  This theorem evaluates the code at both inputs. -/
theorem C3_parse_no_wake_word_gating_eval :
    CommandParser.parse "move forward" =
      some [⟨.move_forward, [("speed", PVal.num 0.4)], PRIORITY_NORMAL⟩] ∧
    CommandParser.parse "jarvis move forward" =
      some [⟨.move_forward, [("speed", PVal.num 0.4)], PRIORITY_NORMAL⟩] :=
  ⟨rfl, rfl⟩

/-- C4.  `send_command` acquires the instance's non-reentrant
`threading.Lock` and then calls `connect` — directly when the interface is
not connected, or through `_reconnect` after a write error — and `connect`
begins with `with self._lock:` on the same lock, so the thread blocks on
itself forever.  Both paths end in the `deadlock` outcome for every
environment: the disconnected path deadlocks immediately after taking the
lock, and the write-error path deadlocks inside `_reconnect`'s `connect`
call after marking the interface disconnected, sleeping the backoff wait
and bumping the attempt counter. -/
theorem C4_send_command_deadlock :
    (∀ (s : SIState) (env : SerialEnv) (cmd : Command) (fuel : ℕ),
      s.lockHeld = false → s.connected = false →
      SerialInterface.send_command fuel s env cmd =
        .deadlock { s with lockHeld := true }) ∧
    (∀ (s : SIState) (env : SerialEnv) (cmd : Command) (fuel : ℕ),
      s.lockHeld = false → s.connected = true → env.writeResult = .serialExc →
      SerialInterface.send_command fuel s env cmd =
        .deadlock { s with
                      lockHeld := true
                      connected := false
                      sleeps := s.sleeps ++
                        [(SerialInterface.reconnectWait s.reconnectAttempts
                            s.maxBackoffSeconds : ℚ)]
                      reconnectAttempts := s.reconnectAttempts + 1 }) := by
  constructor
  · intro s env cmd fuel hlock hconn
    simp [SerialInterface.send_command, SerialInterface.connect, hlock, hconn]
  · intro s env cmd fuel hlock hconn hw
    simp [SerialInterface.send_command, SerialInterface.connect,
          SerialInterface.reconnect, hlock, hconn, hw]

/-- Witness for C4: a fresh disconnected interface deadlocks on
`send_command` even in a fully healthy environment, and a connected
interface whose write raises deadlocks after one backoff sleep. -/
theorem C4_send_command_deadlock_witness :
    SerialInterface.send_command 0 disconnState envOpenOk sampleMoveForward =
      .deadlock { disconnState with lockHeld := true } ∧
    SerialInterface.send_command 0 connState envWriteFail sampleMoveForward =
      .deadlock { connState with
                    lockHeld := true
                    connected := false
                    sleeps := [((1 : ℕ) : ℚ)]
                    reconnectAttempts := 1 } :=
  ⟨C4_send_command_deadlock.1 disconnState envOpenOk sampleMoveForward 0 rfl rfl,
   C4_send_command_deadlock.2 connState envWriteFail sampleMoveForward 0 rfl rfl rfl⟩

/-- C5.  The claim says a write-time I/O error marks the interface
disconnected, runs `_reconnect` exactly once and then reports failure by
returning `False`.  The code does mark the interface disconnected and
invoke `_reconnect` once (visible in the single backoff sleep and attempt
increment), but `_reconnect` calls `connect`, which blocks forever on the
non-reentrant lock still held by `send_command` — the call never returns
`False` (and had the reconnect succeeded, the code would retry recursively
rather than stopping after one retry).  This theorem evaluates the code at
the failing input: a connected interface whose write raises
`serial.SerialException` in an otherwise healthy environment. -/
theorem C5_send_command_write_error_eval :
    SerialInterface.send_command 5 connState envWriteFail sampleMoveForward =
      .deadlock { connState with
                    lockHeld := true
                    connected := false
                    sleeps := [((1 : ℕ) : ℚ)]
                    reconnectAttempts := 1 } := rfl

/-- C6.  `_reconnect` sleeps `min(2 ** attempts, max_backoff_seconds)`
(so attempt counters 0, 1, 2, 3 wait 1, 2, 4, 8 seconds, and 10 from the
fifth attempt on, the configured maximum), increments the attempt counter,
and delegates to `connect`; and every `connect` that returns `True` leaves
the attempt counter at zero — the successful-open path resets it, and the
already-connected early return can only be reached in states whose counter
is already zero (the stated invariant). -/
theorem C6_reconnect_backoff :
    (SerialInterface.reconnectWait 0 10 = 1 ∧
     SerialInterface.reconnectWait 1 10 = 2 ∧
     SerialInterface.reconnectWait 2 10 = 4 ∧
     SerialInterface.reconnectWait 3 10 = 8) ∧
    (∀ a maxB, SerialInterface.reconnectWait a maxB = min (2 ^ a) maxB) ∧
    (∀ a, 4 ≤ a → SerialInterface.reconnectWait a 10 = 10) ∧
    (∀ (s : SIState) (env : SerialEnv),
      s.lockHeld = false → s.connected = false → s.autoDetect = false →
      env.openResult = .serialExc →
      SerialInterface.reconnect s env = .ok false
        { s with
            sleeps := s.sleeps ++
              [(SerialInterface.reconnectWait s.reconnectAttempts
                  s.maxBackoffSeconds : ℚ)]
            reconnectAttempts := s.reconnectAttempts + 1
            connected := false }) ∧
    (∀ (s s2 : SIState) (env : SerialEnv),
      (s.connected = true → s.reconnectAttempts = 0) → s.lockHeld = false →
      SerialInterface.connect s env = .ok true s2 → s2.reconnectAttempts = 0) := by
  refine ⟨⟨rfl, rfl, rfl, rfl⟩, fun a maxB => rfl, ?_, ?_, ?_⟩
  · intro a ha
    have h16 : (16 : ℕ) ≤ 2 ^ a := by
      calc (16 : ℕ) = 2 ^ 4 := by norm_num
        _ ≤ 2 ^ a := Nat.pow_le_pow_right (by norm_num) ha
    have h10 : (10 : ℕ) ≤ 2 ^ a := le_trans (by norm_num) h16
    simp [SerialInterface.reconnectWait, min_eq_right h10]
  · intro s env h1 h2 h3 h4
    simp [SerialInterface.reconnect, SerialInterface.connect, h1, h2, h3, h4]
  · intro s s2 env hinv hlock hc
    simp only [SerialInterface.connect, hlock, if_false, Bool.false_eq_true] at hc
    split at hc
    · rename_i hearly
      cases hc
      exact hinv hearly.1
    · split at hc
      · cases hc
      · split at hc
        · cases hc
          rfl
        · cases hc
        · cases hc

/-- Witness for C6: a failed reconnect on a fresh interface sleeps
`min(2^0, 10) = 1` second and moves the counter to 1, and the successful
`connect` behind `connState` has counter 0. -/
theorem C6_reconnect_backoff_witness :
    SerialInterface.reconnect disconnState envOpenFail = .ok false
      { disconnState with
          sleeps := [((1 : ℕ) : ℚ)]
          reconnectAttempts := 1
          connected := false } ∧
    connState.reconnectAttempts = 0 :=
  ⟨C6_reconnect_backoff.2.2.2.1 disconnState envOpenFail rfl rfl rfl rfl,
   C6_reconnect_backoff.2.2.2.2 disconnState connState envOpenOk
     (fun h => absurd h (by decide)) rfl rfl⟩

/-- C9.  `connect` raises only on the auto-detection path with zero
candidate ports; with a candidate available (or an explicit port), any
failure of the `serial.Serial` constructor makes it return `False`, and a
successful open (or an already-open connection) makes it return `True`. -/
theorem C9_connect_raise_conditions :
    (∀ (s s2 : SIState) (env : SerialEnv), s.lockHeld = false →
      SerialInterface.connect s env = .exc s2 →
      s.autoDetect = true ∧ env.globUsb ++ env.globAcm = []) ∧
    (∀ (s : SIState) (env : SerialEnv), s.lockHeld = false →
      ¬(s.connected = true ∧ s.serial = some true) →
      (s.autoDetect = true → env.globUsb ++ env.globAcm ≠ []) →
      env.openResult ≠ .ok →
      (SerialInterface.connect s env).retVal = some false) ∧
    (∀ (s : SIState) (env : SerialEnv), s.lockHeld = false →
      (s.autoDetect = true → env.globUsb ++ env.globAcm ≠ []) →
      env.openResult = .ok →
      (SerialInterface.connect s env).retVal = some true) := by
  refine ⟨?_, ?_, ?_⟩
  · intro s s2 env hlock hc
    by_cases hauto : s.autoDetect = true
    · rcases hcands : env.globUsb ++ env.globAcm with _ | ⟨p, rest⟩
      · exact ⟨hauto, rfl⟩
      · exfalso
        simp [SerialInterface.connect, SerialInterface.find_serial_port,
              hlock, hauto, hcands] at hc
        split at hc
        · cases hc
        · split at hc <;> cases hc
    · exfalso
      simp [SerialInterface.connect, SerialInterface.find_serial_port,
            hlock, hauto] at hc
      split at hc
      · cases hc
      · split at hc <;> cases hc
  · intro s env hlock hne hcand hopen
    cases hopenr : env.openResult with
    | ok => exact absurd hopenr hopen
    | serialExc =>
      by_cases hauto : s.autoDetect = true
      · rcases hcands : env.globUsb ++ env.globAcm with _ | ⟨p, rest⟩
        · exact absurd hcands (hcand hauto)
        · simp [SerialInterface.connect, SerialInterface.find_serial_port,
                SIRes.retVal, hlock, hauto, hcands, hne, hopenr]
      · simp [SerialInterface.connect, SerialInterface.find_serial_port,
              SIRes.retVal, hlock, hauto, hne, hopenr]
    | otherExc =>
      by_cases hauto : s.autoDetect = true
      · rcases hcands : env.globUsb ++ env.globAcm with _ | ⟨p, rest⟩
        · exact absurd hcands (hcand hauto)
        · simp [SerialInterface.connect, SerialInterface.find_serial_port,
                SIRes.retVal, hlock, hauto, hcands, hne, hopenr]
      · simp [SerialInterface.connect, SerialInterface.find_serial_port,
              SIRes.retVal, hlock, hauto, hne, hopenr]
  · intro s env hlock hcand hopen
    by_cases hearly : s.connected = true ∧ s.serial = some true
    · simp [SerialInterface.connect, SIRes.retVal, hlock, hearly]
    · by_cases hauto : s.autoDetect = true
      · rcases hcands : env.globUsb ++ env.globAcm with _ | ⟨p, rest⟩
        · exact absurd hcands (hcand hauto)
        · simp [SerialInterface.connect, SerialInterface.find_serial_port,
                SIRes.retVal, hlock, hauto, hcands, hearly, hopen]
      · simp [SerialInterface.connect, SerialInterface.find_serial_port,
              SIRes.retVal, hlock, hauto, hearly, hopen]

/-- Witness for C9: with auto-detection and no candidate ports, `connect`
raises; on an explicit port, a failing open returns `false` and a
successful open returns `true`. -/
theorem C9_connect_raise_conditions_witness :
    (SIState.initAuto.autoDetect = true ∧
      envOpenOk.globUsb ++ envOpenOk.globAcm = []) ∧
    (SerialInterface.connect disconnState envOpenFail).retVal = some false ∧
    (SerialInterface.connect disconnState envOpenOk).retVal = some true :=
  ⟨C9_connect_raise_conditions.1 SIState.initAuto SIState.initAuto envOpenOk
     rfl rfl,
   C9_connect_raise_conditions.2.1 disconnState envOpenFail rfl
     (by decide) (fun h => absurd h (by decide)) (by decide),
   C9_connect_raise_conditions.2.2 disconnState envOpenOk rfl
     (fun h => absurd h (by decide)) rfl⟩

/-- `splitNL` finds no line in a buffer without a newline. -/
theorem splitNL_not_mem (l : List Char) (h : '\n' ∉ l) :
    SerialInterface.splitNL l = none := by
  induction l with
  | nil => rfl
  | cons c rest ih =>
    have hc : c ≠ '\n' := fun hcc => h (hcc ▸ List.mem_cons_self c rest)
    have hr : '\n' ∉ rest := fun hm => h (List.mem_cons_of_mem c hm)
    unfold SerialInterface.splitNL
    split
    · rfl
    · rename_i heq
      injection heq with h1 h2
      exact absurd h1 hc
    · rename_i c' rest' hne heq
      injection heq with h1 h2
      subst h1; subst h2
      rw [ih hr]

/-- `splitNL` splits at the first newline: everything before it is the line,
everything after it stays in the buffer. -/
theorem splitNL_append (l r : List Char) (h : '\n' ∉ l) :
    SerialInterface.splitNL (l ++ '\n' :: r) = some (l, r) := by
  induction l with
  | nil => rfl
  | cons c rest ih =>
    have hc : c ≠ '\n' := fun hcc => h (hcc ▸ List.mem_cons_self c rest)
    have hr : '\n' ∉ rest := fun hm => h (List.mem_cons_of_mem c hm)
    rw [List.cons_append]
    unfold SerialInterface.splitNL
    split
    · rename_i heq
      cases heq
    · rename_i heq
      injection heq with h1 h2
      exact absurd h1 hc
    · rename_i c' rest' hne heq
      injection heq with h1 h2
      subst h1
      rw [← h2, ih hr]

/-- `int(timeout * 100)` for the default `SERIAL_TIMEOUT = 1.0` is 100. -/
theorem maxIter_default : (pyInt (SERIAL_TIMEOUT * 100)).toNat = 100 := by
  norm_num [pyInt, SERIAL_TIMEOUT]
  rfl

/-- One unfolding of the blocking poll loop. -/
theorem readLoop_succ (env : SerialEnv) (t : ℚ) (r it : ℕ) (s : SIState) :
    SerialInterface.readLoop env t (r + 1) it s =
      match SerialInterface.tryRead s env with
      | .raiseSerial s2 => .ok none { s2 with connected := false, lockHeld := false }
      | .raiseOther s2 => .ok none { s2 with lockHeld := false }
      | .read s2 =>
        match SerialInterface.splitNL s2.readBuffer with
        | some (line, rest) =>
          .ok (SerialInterface.parse_response line)
            { s2 with readBuffer := rest, lockHeld := false }
        | none =>
          if t ≤ (1 / 100 : ℚ) * it then .ok none { s2 with lockHeld := false }
          else SerialInterface.readLoop env t r (it + 1)
            { s2 with sleeps := s2.sleeps ++ [(1 / 100 : ℚ)] } := rfl

/-- C7.  Framing: when one underlying read delivers two complete
newline-terminated lines at once, two consecutive `read_response` calls
(non-blocking, and likewise blocking with the default timeout) return the
two parsed lines separately, in arrival order; a chunk without a terminator
is retained in `_read_buffer` across calls, returning `none`, and once its
terminator arrives the reassembled whole is parsed as a single message. -/
theorem C7_read_response_framing (s : SIState) (env : SerialEnv)
    (line1 line2 part rest : List Char)
    (hlock : s.lockHeld = false) (hconn : s.connected = true)
    (hbuf : s.readBuffer = []) (hread : env.readResult = .ok)
    (h1 : '\n' ∉ line1) (h2 : '\n' ∉ line2) (hp : '\n' ∉ part)
    (hpne : part ≠ []) (hr : '\n' ∉ rest) :
    (SerialInterface.read_response
        { s with pending := [line1 ++ '\n' :: (line2 ++ ['\n'])] }
        env false none =
      .ok (SerialInterface.parse_response line1)
        { s with readBuffer := line2 ++ ['\n'], pending := [] } ∧
     SerialInterface.read_response
        { s with readBuffer := line2 ++ ['\n'], pending := [] }
        env false none =
      .ok (SerialInterface.parse_response line2)
        { s with readBuffer := [], pending := [] }) ∧
    (SerialInterface.read_response
        { s with pending := [line1 ++ '\n' :: (line2 ++ ['\n'])] }
        env true none =
      .ok (SerialInterface.parse_response line1)
        { s with readBuffer := line2 ++ ['\n'], pending := [] } ∧
     SerialInterface.read_response
        { s with readBuffer := line2 ++ ['\n'], pending := [] }
        env true none =
      .ok (SerialInterface.parse_response line2)
        { s with readBuffer := [], pending := [] }) ∧
    (SerialInterface.read_response { s with pending := [part] } env false none =
      .ok none { s with readBuffer := part, pending := [] } ∧
     SerialInterface.read_response
        { s with readBuffer := part, pending := [rest ++ ['\n']] }
        env false none =
      .ok (SerialInterface.parse_response (part ++ rest))
        { s with readBuffer := [], pending := [] }) := by
  have hchunk : (line1 ++ '\n' :: (line2 ++ ['\n'])).length > 0 := by simp
  have hsplit1 : SerialInterface.splitNL (line1 ++ '\n' :: (line2 ++ ['\n'])) =
      some (line1, line2 ++ ['\n']) := splitNL_append _ _ h1
  have hsplit2 : SerialInterface.splitNL (line2 ++ ['\n']) = some (line2, []) :=
    splitNL_append line2 [] h2
  have hsplit3 : SerialInterface.splitNL part = none := splitNL_not_mem part hp
  have hsplit4 : SerialInterface.splitNL (part ++ (rest ++ ['\n'])) =
      some (part ++ rest, []) := by
    rw [← List.append_assoc]
    exact splitNL_append (part ++ rest) []
      (by simp only [List.mem_append]; rintro (h | h) <;> [exact hp h; exact hr h])
  refine ⟨⟨?_, ?_⟩, ⟨?_, ?_⟩, ⟨?_, ?_⟩⟩
  · simp [SerialInterface.read_response, SerialInterface.tryRead,
          SerialInterface.inWaiting, hlock, hconn, hbuf, hread, hchunk, hsplit1]
  · simp [SerialInterface.read_response, SerialInterface.tryRead,
          SerialInterface.inWaiting, hlock, hconn, hread, hsplit2]
  · simp only [SerialInterface.read_response, hlock, Bool.false_eq_true,
               if_false, hconn, maxIter_default]
    rw [show (100 : ℕ) = 99 + 1 from rfl, readLoop_succ]
    simp [SerialInterface.tryRead, SerialInterface.inWaiting, hread, hchunk,
          hbuf, hsplit1]
  · simp only [SerialInterface.read_response, hlock, Bool.false_eq_true,
               if_false, hconn, maxIter_default]
    rw [show (100 : ℕ) = 99 + 1 from rfl, readLoop_succ]
    simp [SerialInterface.tryRead, SerialInterface.inWaiting, hread, hsplit2]
  · simp [SerialInterface.read_response, SerialInterface.tryRead,
          SerialInterface.inWaiting, hlock, hconn, hbuf, hread, hsplit3,
          List.length_pos, hpne]
  · simp [SerialInterface.read_response, SerialInterface.tryRead,
          SerialInterface.inWaiting, hlock, hconn, hread, hsplit4]

/-- Witness for C7: the spec's own example — the chunk
`{"a":1}\n{"b":2}\n` in one read yields the objects `{"a": 1}` then
`{"b": 2}` on two consecutive calls, and the partial line `{"a":` is held
until `1}\n` completes it. -/
theorem C7_read_response_framing_witness :
    (SerialInterface.read_response { connState with
        pending := ["\x7b\"a\":1\x7d".data ++ '\n' :: ("\x7b\"b\":2\x7d".data ++ ['\n'])] }
        envOpenOk false none =
      .ok (some (JsonVal.jobj [("a", JsonVal.jnum "1")]))
        { connState with readBuffer := "\x7b\"b\":2\x7d".data ++ ['\n'], pending := [] } ∧
     SerialInterface.read_response { connState with
        readBuffer := "\x7b\"b\":2\x7d".data ++ ['\n'], pending := [] }
        envOpenOk false none =
      .ok (some (JsonVal.jobj [("b", JsonVal.jnum "2")]))
        { connState with readBuffer := [], pending := [] }) ∧
    (SerialInterface.read_response { connState with pending := ["\x7b\"a\":".data] }
        envOpenOk false none =
      .ok none { connState with readBuffer := "\x7b\"a\":".data, pending := [] } ∧
     SerialInterface.read_response { connState with
        readBuffer := "\x7b\"a\":".data, pending := ["1\x7d".data ++ ['\n']] }
        envOpenOk false none =
      .ok (some (JsonVal.jobj [("a", JsonVal.jnum "1")]))
        { connState with readBuffer := [], pending := [] }) :=
  have h := C7_read_response_framing connState envOpenOk "\x7b\"a\":1\x7d".data
    "\x7b\"b\":2\x7d".data "\x7b\"a\":".data "1\x7d".data rfl rfl rfl rfl (by decide)
    (by decide) (by decide) (by decide) (by decide)
  ⟨h.1, h.2.2⟩

/-- `_parse_response` rejects a line that fails `json.loads` or whose value
is not a JSON object. -/
theorem parse_response_eq_none (line : List Char)
    (hbad : Json.loads (pyStrip line) = none ∨
      ∀ v, Json.loads (pyStrip line) = some v → v.isObj = false) :
    SerialInterface.parse_response line = none := by
  unfold SerialInterface.parse_response
  simp only []
  split
  · rfl
  · rcases hbad with h | h
    · simp [h]
    · cases hl : Json.loads (pyStrip line) with
      | none => simp [hl]
      | some v => simp [hl, h v hl]

/-- C8.  A complete line that is not valid JSON, or whose value is not a
JSON object, makes `read_response` return `none` while the connection state
(`_connected`) and the port object stay untouched, and only the consumed
line leaves the read buffer. -/
theorem C8_protocol_error_reads_none (s : SIState) (env : SerialEnv)
    (line rest : List Char)
    (hlock : s.lockHeld = false) (hconn : s.connected = true)
    (hnl : '\n' ∉ line)
    (hbad : Json.loads (pyStrip line) = none ∨
      ∀ v, Json.loads (pyStrip line) = some v → v.isObj = false) :
    SerialInterface.read_response
        { s with readBuffer := line ++ '\n' :: rest, pending := [] }
        env false none =
      .ok none { s with readBuffer := rest, pending := [] } ∧
    ({ s with readBuffer := rest, pending := ([] : List (List Char)) }).connected
      = s.connected ∧
    ({ s with readBuffer := rest, pending := ([] : List (List Char)) }).serial
      = s.serial := by
  have hpr : SerialInterface.parse_response line = none :=
    parse_response_eq_none line hbad
  have hsplit : SerialInterface.splitNL (line ++ '\n' :: rest) =
      some (line, rest) := splitNL_append _ _ hnl
  refine ⟨?_, rfl, rfl⟩
  simp [SerialInterface.read_response, SerialInterface.tryRead,
        SerialInterface.inWaiting, hlock, hconn, hsplit, hpr]

/-- Witness for C8: the invalid line `not json` is consumed, `none` is
returned, and the interface stays connected. -/
theorem C8_protocol_error_reads_none_witness :
    SerialInterface.read_response { connState with
        readBuffer := "not json".data ++ '\n' :: [], pending := [] }
        envOpenOk false none =
      .ok none { connState with readBuffer := [], pending := [] } :=
  (C8_protocol_error_reads_none connState envOpenOk "not json".data [] rfl rfl
    (by decide) (Or.inl rfl)).1

/-- A command built with `PRIORITY_NORMAL` and a non-`stop` kind satisfies
the priority discipline. -/
theorem prioOk_normal (ct : CommandType) (params : List (String × PVal))
    (hct : ¬ ct = CommandType.stop) :
    prioOk ⟨ct, params, PRIORITY_NORMAL⟩ := by
  have hne : ¬ (PRIORITY_NORMAL = PRIORITY_STOP) := by decide
  refine ⟨Or.inl rfl, ?_, ?_⟩
  · intro h
    exact absurd h hne
  · intro h
    exact absurd h hct

/-- A `stop` command built with `PRIORITY_STOP` satisfies the priority
discipline. -/
theorem prioOk_stop (params : List (String × PVal)) :
    prioOk ⟨CommandType.stop, params, PRIORITY_STOP⟩ :=
  ⟨Or.inr rfl, iff_of_true rfl rfl⟩

/-- Every command produced by `_parse_primitive` obeys the priority
discipline: the `STOP` branch is built with `PRIORITY_STOP`, all others
with `PRIORITY_NORMAL`. -/
theorem prioOk_parse_primitive (t : List Char) (c : Command)
    (h : CommandParser.parse_primitive t = some c) : prioOk c := by
  unfold CommandParser.parse_primitive at h
  repeat' split at h
  all_goals first
    | (cases h; exact prioOk_stop _)
    | (cases h; exact prioOk_normal _ _ (by decide))
    | cases h

/-- Every command produced by `_parse_intermediate` obeys the priority
discipline: all its branches build non-`stop` kinds with
`PRIORITY_NORMAL`. -/
theorem prioOk_parse_intermediate (t : List Char) (c : Command)
    (h : CommandParser.parse_intermediate t = some c) : prioOk c := by
  unfold CommandParser.parse_intermediate at h
  repeat' split at h
  all_goals first
    | (cases h; exact prioOk_normal _ _ (by decide))
    | cases h

/-- Every command built for a winning segment match obeys the priority
discipline (the explicit-angle branch builds rotate commands with
`PRIORITY_NORMAL`; the rest delegates to the two parse helpers). -/
theorem prioOk_buildCommand (rem : List Char) (ct : CommandType)
    (st : CommandParser.ScanState) (c : Command)
    (h : CommandParser.buildCommand rem ct st = some c) : prioOk c := by
  unfold CommandParser.buildCommand at h
  repeat' split at h
  all_goals first
    | (cases h; exact prioOk_normal _ _ (by decide))
    | exact prioOk_parse_intermediate _ _ h
    | exact prioOk_parse_primitive _ _ h

/-- Every command in a `_parse_segment_commands` result obeys the priority
discipline. -/
theorem prioOk_segAux (fuel : ℕ) (rem : List Char) (c : Command)
    (h : c ∈ CommandParser.parse_segment_commandsAux fuel rem) : prioOk c := by
  induction fuel generalizing rem with
  | zero => cases h
  | succ fuel ih =>
    unfold CommandParser.parse_segment_commandsAux at h
    dsimp only [] at h
    split at h
    · cases h
    · split at h
      · cases h
      · rename_i st ct hbest
        split at h
        · rename_i cmd hcmd
          rcases List.mem_cons.mp h with hc | hc
          · subst hc
            exact prioOk_buildCommand _ _ _ _ hcmd
          · exact ih _ hc
        · exact ih _ h

/-- Every command in a `parse` result obeys the priority discipline. -/
theorem prioOk_parse (text : String) (l : List Command) (c : Command)
    (hp : CommandParser.parse text = some l) (hc : c ∈ l) : prioOk c := by
  unfold CommandParser.parse at hp
  dsimp only [] at hp
  split at hp
  · cases hp
  · split at hp
    · cases hp
    · split at hp
      · cases hp
      · rename_i hne
        cases hp
        revert hc
        generalize hsegs : CommandParser.split_commands _ = segs
        have hgen : ∀ (segs : List (List Char)) (acc : List Command),
            (∀ x ∈ acc, prioOk x) →
            ∀ x ∈ segs.foldl
              (fun acc seg =>
                let seg := pyStrip seg
                if seg.isEmpty then acc
                else
                  let segCmds := CommandParser.parse_segment_commands seg
                  if segCmds.isEmpty then acc else acc ++ segCmds) acc,
              prioOk x := by
          intro segs
          induction segs with
          | nil => intro acc hacc x hx; exact hacc x hx
          | cons seg rest ih =>
            intro acc hacc x hx
            refine ih _ ?_ x hx
            intro y hy
            by_cases he : (pyStrip seg).isEmpty
            · simp only [he, if_true] at hy
              exact hacc y hy
            · simp only [he, if_false] at hy
              by_cases hse : (CommandParser.parse_segment_commands (pyStrip seg)).isEmpty
              · simp only [hse, if_true] at hy
                exact hacc y hy
              · simp only [hse, if_false] at hy
                rcases List.mem_append.mp hy with hyy | hyy
                · exact hacc y hyy
                · exact prioOk_segAux _ _ _ hyy
        intro hc
        exact hgen segs [] (by intro x hx; cases hx) c hc

/-- C10.  For every input text, every command in the list returned by
`CommandParser.parse` has priority `PRIORITY_NORMAL` (0) or
`PRIORITY_STOP` (100), and the priority is 100 exactly on commands of kind
`stop`: every constructor in `_parse_primitive`, `_parse_intermediate` and
the explicit-angle branch passes one of the two constants, and
`PRIORITY_STOP` appears only on the `STOP` branch of `_parse_primitive`. -/
theorem C10_parse_priority_invariant (text : String) (l : List Command)
    (c : Command) (hp : CommandParser.parse text = some l) (hc : c ∈ l) :
    (c.priority = PRIORITY_NORMAL ∨ c.priority = PRIORITY_STOP) ∧
    (c.priority = PRIORITY_STOP ↔ c.command_type = CommandType.stop) :=
  prioOk_parse text l c hp hc

/-- Witness for C10: `parse "stop"` yields the stop command with priority
100, which satisfies the discipline. -/
theorem C10_parse_priority_invariant_witness :
    CommandParser.parse "stop" =
      some [⟨CommandType.stop, [], PRIORITY_STOP⟩] ∧
    (((⟨CommandType.stop, [], PRIORITY_STOP⟩ : Command).priority = PRIORITY_NORMAL ∨
      (⟨CommandType.stop, [], PRIORITY_STOP⟩ : Command).priority = PRIORITY_STOP) ∧
     ((⟨CommandType.stop, [], PRIORITY_STOP⟩ : Command).priority = PRIORITY_STOP ↔
      (⟨CommandType.stop, [], PRIORITY_STOP⟩ : Command).command_type =
        CommandType.stop)) :=
  ⟨rfl, C10_parse_priority_invariant "stop"
    [⟨CommandType.stop, [], PRIORITY_STOP⟩]
    ⟨CommandType.stop, [], PRIORITY_STOP⟩ rfl (List.mem_singleton_self _)⟩

end VoiceRover
